import Mathlib

/-!
Verification of the personal finance tracker (src/finance_tracker.py).

The program keeps an in-memory list of transaction records, loads them from
and saves them to a CSV file, lets the user add records interactively, and
aggregates amounts by category.

Embedding conventions:
- Monetary amounts are modelled as exact rationals (`ℚ`).  Python stores them
  as floats; the claims under consideration never depend on binary floating
  point artifacts, only on decimal values, which rationals represent exactly.
- A CSV data row is a `Row` with the four fields of the file format
  (`date,category,description,amount`); its amount field is an `AmountField`:
  either a string that Python's float() converts to the rational `q`
  (constructor `num q`), or a string on which float() raises ValueError
  (constructor `str s`).  The csv module quotes fields, so the three text
  fields round-trip verbatim; we model the file at field granularity.
- The file on disk is `FileState`: `none` when the file is absent,
  `some rows` when it holds the header plus `rows`.
- Console interaction is modelled by explicit input lists and by result
  structures recording which notices were printed.
-/

namespace FinanceTracker

/-- CATEGORIES = ["Food", "Housing", "Transport", "Income", "Other"]
(finance_tracker.py line 10). -/
def CATEGORIES : List String := ["Food", "Housing", "Transport", "Income", "Other"]

/-- An in-memory expense record: the dictionary built at lines 112-117 and
appended by load at line 35, always carrying the four fields with a numeric
amount. -/
structure Record where
  date : String
  category : String
  description : String
  amount : ℚ
deriving DecidableEq

/-- The amount field of a CSV row, classified by how Python's float()
treats the underlying string: `num q` is a string float() converts to `q`,
`str s` is a string on which float() raises ValueError. -/
inductive AmountField where
  | num (q : ℚ)
  | str (s : String)
deriving DecidableEq

/-- One data row of the CSV file, with the four fields of the header
`date,category,description,amount` (line 53). -/
structure Row where
  date : String
  category : String
  description : String
  amount : AmountField
deriving DecidableEq

/-- The backing file: absent, or present with the given data rows. -/
abbrev FileState : Type := Option (List Row)

/-- Lines 33-35: convert the amount field with float(); on success the row
becomes an in-memory record, on ValueError it yields nothing (the row is
skipped). -/
def rowRecord (row : Row) : Option Record :=
  match row.amount with
  | .num q => some ⟨row.date, row.category, row.description, q⟩
  | .str _ => none

/-- Lines 58-64: DictWriter writes a record as one CSV row; the amount float
is printed by str(), which float() parses back to the same value, hence
`num r.amount`. -/
def recordToRow (r : Record) : Row :=
  ⟨r.date, r.category, r.description, .num r.amount⟩

/-- The reader loop of lines 31-38: process rows in order, collecting
converted records and the rows skipped with the
"Skipping invalid data entry" message. -/
def loadRows : List Row → List Record × List Row
  | [] => ([], [])
  | row :: rest =>
    match rowRecord row with
    | some rec =>
      let (es, sk) := loadRows rest
      (rec :: es, sk)
    | none =>
      let (es, sk) := loadRows rest
      (es, row :: sk)

/-- Observable outcome of load_expenses: the resulting store, whether the
"not found" notice (line 24) was printed, the rows reported as skipped
(line 38, in order), and the count printed by the "Loaded N transactions"
message (line 39) when it was printed. -/
structure LoadResult where
  expenses : List Record
  notFoundNotice : Bool
  skippedRows : List Row
  loadedMsg : Option Nat
deriving DecidableEq

/-- load_expenses (lines 14-42).  `prev` is the store before the call; line 20
clears it before anything else, so the result depends on the file alone. -/
def load_expenses (_prev : List Record) (fs : FileState) : LoadResult :=
  match fs with
  | none => ⟨[], true, [], none⟩
  | some rows =>
    let (es, sk) := loadRows rows
    ⟨es, false, sk, some es.length⟩

/-- Observable outcome of save_expenses: the file afterwards, whether the
"No data to save" notice (line 49) was printed, and the count printed by
the "Successfully saved N transactions" message (line 65). -/
structure SaveResult where
  file : FileState
  noDataNotice : Bool
  savedCount : Option Nat
deriving DecidableEq

/-- save_expenses (lines 44-69): an empty store is a no-op with a notice;
otherwise the file is fully overwritten with one row per record in store
order. -/
def save_expenses (store : List Record) (fs : FileState) : SaveResult :=
  if store.isEmpty then ⟨fs, true, none⟩
  else ⟨some (store.map recordToRow), false, some store.length⟩

/-- One step of the aggregation loop of generate_monthly_report
(lines 136-147): the accumulator is the category-totals dictionary (as a
total function that is 0 outside the keys ever updated; the Python dict has
exactly the CATEGORIES keys, so the membership test
`category in category_totals` is `category ∈ CATEGORIES`) together with the
net-total accumulator. -/
def aggregateStep (acc : (String → ℚ) × ℚ) (r : Record) : (String → ℚ) × ℚ :=
  let amount := r.amount
  let category := r.category
  if category ∈ CATEGORIES then
    (Function.update acc.1 category (acc.1 category + amount), acc.2 + amount)
  else
    (Function.update acc.1 "Other" (acc.1 "Other" + amount), acc.2 + amount)

/-- The whole aggregation of lines 131-147: start every category at 0.0 and
the net total at 0.0, then fold over the store in order. -/
def aggregate (store : List Record) : (String → ℚ) × ℚ :=
  store.foldl aggregateStep (fun _ => 0, 0)

/-- generate_monthly_report (lines 123-157): with an empty store it only
prints a notice (`none`); otherwise it computes and prints the aggregation. -/
def generate_monthly_report (store : List Record) : Option ((String → ℚ) × ℚ) :=
  if store.isEmpty then none
  else some (aggregate store)

/-- The bucket a record's category is counted under, per lines 141-145:
itself when it is an enumerated category, "Other" otherwise.  Used only to
state properties of `aggregate`. -/
def bucket (category : String) : String :=
  if category ∈ CATEGORIES then category else "Other"

/-- One category-prompt attempt in add_expense (lines 88-97), classified by
how int() treats the entered string: `valid n` is a string int() converts to
`n`, `invalid` a string on which int() raises ValueError. -/
inductive CatInput where
  | valid (n : ℤ)
  | invalid
deriving DecidableEq

/-- One amount-prompt attempt in add_expense (lines 100-106), classified by
how float() treats the entered string: `valid q` is a string float() converts
to `q`, `invalid` a string on which float() raises ValueError. -/
inductive AmtInput where
  | valid (q : ℚ)
  | invalid
deriving DecidableEq

/-- Rejection messages of the entry flow: line 95
("Invalid number. Please select from 1 to 5."), line 97
("Invalid input. Please enter a number.") and line 106
("Invalid amount. Please enter a number ..."). -/
inductive EntryMsg where
  | invalidNumber
  | invalidInput
  | invalidAmount
deriving DecidableEq

/-- Python's round(x, 2): round to 2 fractional digits, ties to even.
Binary float representation is abstracted to exact rationals. -/
def round2 (q : ℚ) : ℚ :=
  let x : ℚ := q * 100
  let f : ℤ := ⌊x⌋
  let frac : ℚ := x - f
  if frac < 1/2 then (f : ℚ) / 100
  else if 1/2 < frac then ((f + 1 : ℤ) : ℚ) / 100
  else if f % 2 = 0 then (f : ℚ) / 100 else ((f + 1 : ℤ) : ℚ) / 100

/-- The category retry loop of lines 88-97: consume attempts until one is an
integer in [1, len(CATEGORIES)], returning the selected category name and the
rejection messages printed along the way; `none` when the attempts run out
while the loop is still re-prompting. -/
def selectCategory : List CatInput → Option String × List EntryMsg
  | [] => (none, [])
  | .valid n :: rest =>
    if 1 ≤ n ∧ n ≤ (CATEGORIES.length : ℤ) then
      (CATEGORIES.get? (n - 1).toNat, [])
    else
      let (r, ms) := selectCategory rest
      (r, .invalidNumber :: ms)
  | .invalid :: rest =>
    let (r, ms) := selectCategory rest
    (r, .invalidInput :: ms)

/-- The amount retry loop of lines 100-106: consume attempts until one
parses as a float, returning it rounded to 2 fractional digits, and the
rejection messages printed along the way; `none` when the attempts run out
while the loop is still re-prompting. -/
def readAmount : List AmtInput → Option ℚ × List EntryMsg
  | [] => (none, [])
  | .valid q :: _ => (some (round2 q), [])
  | .invalid :: rest =>
    let (r, ms) := readAmount rest
    (r, .invalidAmount :: ms)

/-- The interactive inputs one call to add_expense consumes: the attempts at
the category prompt, the attempts at the amount prompt, and the description
line. -/
structure EntryInputs where
  cats : List CatInput
  amts : List AmtInput
  desc : String

/-- add_expense (lines 73-121): the date is set to today's date, the category
and amount are obtained by the retry loops, the description is stripped, and
the new record is appended to the store.  When either retry loop has not yet
accepted a value the call is still blocked at a prompt, so the store is
unchanged. -/
def add_expense (today : String) (inp : EntryInputs) (store : List Record) :
    List Record :=
  match (selectCategory inp.cats).1, (readAmount inp.amts).1 with
  | some c, some a => store ++ [⟨today, c, inp.desc.trim, a⟩]
  | _, _ => store

/-- The program state carried through the menu loop: the in-memory store and
the backing file. -/
structure TrackerState where
  expenses : List Record
  file : FileState
deriving DecidableEq

/-- Observable outcome of one menu-loop iteration: the loop continues, the
loop continues after printing the "Invalid choice" message (line 207), or the
loop ends (the break at line 204). -/
inductive MenuOutcome where
  | continued
  | invalidChoice
  | exited
deriving DecidableEq

/-- The inputs one menu-loop iteration consumes: the menu choice string read
at line 193, plus (used only on choice "1") the entry inputs and the current
date. -/
structure MenuInput where
  choice : String
  today : String
  entry : EntryInputs

/-- One iteration of the while loop of main_menu (lines 186-207): dispatch on
the choice; "4" saves and breaks, any string other than "1".."4" prints the
invalid-choice message and re-loops; view (choice "2") and report (choice
"3") read the store but never modify state. -/
def main_menu_step (st : TrackerState) (inp : MenuInput) :
    TrackerState × MenuOutcome :=
  if inp.choice = "1" then
    ({ st with expenses := add_expense inp.today inp.entry st.expenses },
     .continued)
  else if inp.choice = "2" then (st, .continued)
  else if inp.choice = "3" then (st, .continued)
  else if inp.choice = "4" then
    ({ st with file := (save_expenses st.expenses st.file).file }, .exited)
  else (st, .invalidChoice)

/-! ### Helper lemmas -/

/-- The reader loop collects exactly the convertible rows (in order) and the
skipped rows (in order). -/
lemma loadRows_eq (rows : List Row) :
    loadRows rows
      = (rows.filterMap rowRecord,
         rows.filter (fun r => (rowRecord r).isNone)) := by
  induction rows with
  | nil => rfl
  | cons row rest ih =>
    cases h : rowRecord row with
    | some rec => simp [loadRows, h, ih]
    | none => simp [loadRows, h, ih]

/-- A row written from a record converts back to that record. -/
lemma rowRecord_recordToRow (r : Record) : rowRecord (recordToRow r) = some r :=
  rfl

/-- Reading back rows written from a store reproduces the store, skipping
nothing. -/
lemma loadRows_map (store : List Record) :
    loadRows (store.map recordToRow) = (store, []) := by
  induction store with
  | nil => rfl
  | cons r rest ih => simp [loadRows, rowRecord_recordToRow, ih]

/-- filterMap keeps the whole list when the function succeeds everywhere. -/
lemma length_filterMap_of_isSome {α β : Type} (f : α → Option β) :
    ∀ l : List α, (∀ r ∈ l, (f r).isSome) →
      (l.filterMap f).length = l.length := by
  intro l
  induction l with
  | nil => intro _; rfl
  | cons a rest ih =>
    intro h
    cases hfa : f a with
    | some b =>
      simp only [List.filterMap_cons, hfa, List.length_cons]
      rw [ih (fun r hr => h r (List.mem_cons_of_mem a hr))]
    | none =>
      have := h a (List.mem_cons_self a rest)
      rw [hfa] at this
      simp at this

/-! ### Claims -/

/-- Claim C4: when the backing file does not exist, load_expenses yields an
empty store, prints the not-found notice, reports no skipped rows and no
loaded count, whatever the store held before; the function is total, so no
error is raised. -/
theorem load_missing_file (prev : List Record) :
    load_expenses prev none = ⟨[], true, [], none⟩ :=
  rfl

/-- Claim C5: saving an empty store leaves the file exactly as it was (an
absent file stays absent, present contents stay untouched), prints the
no-data notice and no saved-count message, whatever the prior file state. -/
theorem save_empty_noop (fs : FileState) :
    save_expenses [] fs = ⟨fs, true, none⟩ :=
  rfl

/-- Claim C10: load_expenses clears the store first, so its result is
determined by the file alone — the prior store contents are irrelevant — and
loading twice gives the same result as loading once, for every file state
including an absent file. -/
theorem load_replaces_and_idempotent (prev : List Record) (fs : FileState) :
    load_expenses prev fs = load_expenses [] fs
      ∧ load_expenses (load_expenses prev fs).expenses fs
          = load_expenses prev fs :=
  ⟨rfl, rfl⟩

/-- Claim C1: saving a non-empty store and then loading yields exactly the
saved records, in the same order, with equal amounts, whatever the store held
before the load and whatever the file held before the save. -/
theorem save_load_roundtrip (store prev : List Record) (fs : FileState)
    (h : store ≠ []) :
    (load_expenses prev (save_expenses store fs).file).expenses = store := by
  have hfile : (save_expenses store fs).file = some (store.map recordToRow) := by
    match store with
    | [] => exact absurd rfl h
    | r :: rest => rfl
  rw [hfile]
  simp [load_expenses, loadRows_map]

/-- Witness for C1 at a concrete one-record store. -/
theorem save_load_roundtrip_witness :
    ([⟨"2025-01-01", "Food", "lunch", -20⟩] : List Record) ≠ []
      ∧ (load_expenses []
            (save_expenses [⟨"2025-01-01", "Food", "lunch", -20⟩] none).file).expenses
          = [⟨"2025-01-01", "Food", "lunch", -20⟩] :=
  ⟨by decide, save_load_roundtrip _ _ none (by decide)⟩

/-- Claim C3: loading a file whose rows all have the four fields and in which
exactly one row has a non-convertible amount yields every other row's record
in file order, excludes that one row, and reports it as the single skipped
entry. -/
theorem load_skips_single_bad_row (prev : List Record)
    (pre post : List Row) (bad : Row)
    (hbad : rowRecord bad = none)
    (hgood : ∀ r ∈ pre ++ post, (rowRecord r).isSome) :
    (load_expenses prev (some (pre ++ bad :: post))).expenses
        = pre.filterMap rowRecord ++ post.filterMap rowRecord
      ∧ (load_expenses prev (some (pre ++ bad :: post))).skippedRows = [bad]
      ∧ (load_expenses prev (some (pre ++ bad :: post))).expenses.length
          = pre.length + post.length := by
  have hpre : ∀ r ∈ pre, (rowRecord r).isSome :=
    fun r hr => hgood r (List.mem_append_left post hr)
  have hpost : ∀ r ∈ post, (rowRecord r).isSome :=
    fun r hr => hgood r (List.mem_append_right pre hr)
  have hexp : (load_expenses prev (some (pre ++ bad :: post))).expenses
      = pre.filterMap rowRecord ++ post.filterMap rowRecord := by
    simp [load_expenses, loadRows_eq, List.filterMap_append, hbad]
  refine ⟨hexp, ?_, ?_⟩
  · have h1 : pre.filter (fun r => (rowRecord r).isNone) = [] := by
      simp only [List.filter_eq_nil_iff]
      intro r hr
      have := hpre r hr
      simp [Option.isNone_iff_eq_none]
      exact Option.isSome_iff_ne_none.mp this
    have h2 : post.filter (fun r => (rowRecord r).isNone) = [] := by
      simp only [List.filter_eq_nil_iff]
      intro r hr
      have := hpost r hr
      simp [Option.isNone_iff_eq_none]
      exact Option.isSome_iff_ne_none.mp this
    simp [load_expenses, loadRows_eq, List.filter_append, h1, h2, hbad]
  · rw [hexp]
    simp [length_filterMap_of_isSome rowRecord pre hpre,
          length_filterMap_of_isSome rowRecord post hpost]

/-- Witness for C3 at a concrete file: one good row, one bad row, one good
row. -/
theorem load_skips_single_bad_row_witness :
    rowRecord ⟨"2025-01-02", "Food", "x", .str "oops"⟩ = none
      ∧ (load_expenses []
            (some [⟨"2025-01-01", "Food", "a", .num 5⟩,
                   ⟨"2025-01-02", "Food", "x", .str "oops"⟩,
                   ⟨"2025-01-03", "Income", "b", .num 7⟩])).expenses
          = [⟨"2025-01-01", "Food", "a", 5⟩, ⟨"2025-01-03", "Income", "b", 7⟩]
      ∧ (load_expenses []
            (some [⟨"2025-01-01", "Food", "a", .num 5⟩,
                   ⟨"2025-01-02", "Food", "x", .str "oops"⟩,
                   ⟨"2025-01-03", "Income", "b", .num 7⟩])).skippedRows
          = [⟨"2025-01-02", "Food", "x", .str "oops"⟩] := by
  have h := load_skips_single_bad_row []
      [⟨"2025-01-01", "Food", "a", .num 5⟩]
      [⟨"2025-01-03", "Income", "b", .num 7⟩]
      ⟨"2025-01-02", "Food", "x", .str "oops"⟩
      (by decide) (by decide)
  exact ⟨by decide, h.1.trans (by decide), h.2.1⟩

/-- One aggregation step updates the totals dictionary exactly at the bucket
of the record's category, and adds the amount to the net accumulator. -/
lemma aggregateStep_eq (acc : (String → ℚ) × ℚ) (r : Record) :
    aggregateStep acc r
      = (Function.update acc.1 (bucket r.category)
           (acc.1 (bucket r.category) + r.amount),
         acc.2 + r.amount) := by
  by_cases h : r.category ∈ CATEGORIES
  · simp [aggregateStep, bucket, h]
  · simp [aggregateStep, bucket, h]

/-- The aggregation fold, from an arbitrary accumulator: the net accumulator
gains the sum of all amounts, and each totals entry gains the sum of the
amounts bucketed to it. -/
lemma foldl_aggregateStep (l : List Record) :
    ∀ acc : (String → ℚ) × ℚ,
      (l.foldl aggregateStep acc).2 = acc.2 + (l.map Record.amount).sum
      ∧ ∀ c, (l.foldl aggregateStep acc).1 c
          = acc.1 c
            + ((l.filter (fun r => bucket r.category = c)).map
                Record.amount).sum := by
  induction l with
  | nil => intro acc; simp
  | cons r rest ih =>
    intro acc
    rw [List.foldl_cons, aggregateStep_eq]
    refine ⟨?_, ?_⟩
    · rw [(ih _).1]
      simp [add_assoc]
    · intro c
      rw [(ih _).2 c]
      by_cases hc : bucket r.category = c
      · subst hc
        simp [List.filter_cons, Function.update_same, add_assoc]
      · have hc' : c ≠ bucket r.category := fun he => hc he.symm
        simp [List.filter_cons, hc, hc', Function.update_apply]

/-- Claim C6: for every record sequence, the aggregation of
generate_monthly_report adds every record's amount to the net-total
accumulator, and each category total is the sum of the amounts of the
records bucketed to it — a record counts toward its own category when that
category is enumerated and toward "Other" otherwise. -/
theorem aggregate_totals (store : List Record) :
    (aggregate store).2 = (store.map Record.amount).sum
      ∧ ∀ c, (aggregate store).1 c
          = ((store.filter (fun r => bucket r.category = c)).map
              Record.amount).sum := by
  have h := foldl_aggregateStep store (fun _ => 0, 0)
  exact ⟨by simpa using h.1, fun c => by simpa using h.2 c⟩

/-- The record sequence of the aggregation example: Food -20.00,
Income +1000.00, Food -5.50. -/
def exampleStore : List Record :=
  [⟨"2025-01-01", "Food", "", -20⟩,
   ⟨"2025-01-02", "Income", "", 1000⟩,
   ⟨"2025-01-03", "Food", "", -5.5⟩]

/-- Claim C2: on the example sequence the aggregation yields Food = -25.50,
Income = 1000.00, zero for each other enumerated category, and net total
974.50. -/
theorem aggregate_example :
    (aggregate exampleStore).1 "Food" = -25.5
      ∧ (aggregate exampleStore).1 "Income" = 1000
      ∧ (aggregate exampleStore).1 "Housing" = 0
      ∧ (aggregate exampleStore).1 "Transport" = 0
      ∧ (aggregate exampleStore).1 "Other" = 0
      ∧ (aggregate exampleStore).2 = 974.5 := by
  refine ⟨?_, ?_, ?_, ?_, ?_, ?_⟩ <;>
    simp [aggregate, exampleStore, aggregateStep, CATEGORIES,
      Function.update] <;>
    norm_num

/-- Claim C8: the category prompt re-prompts on non-numeric input with the
"Invalid input" message and on out-of-range numbers with the distinct
"Invalid number" message, accepting exactly the integers in
[1, len(CATEGORIES)] (yielding an existing category); the amount prompt
re-prompts on non-numeric input with the "Invalid amount" message and
accepts any parseable decimal — positive, negative or zero — rounded to 2
fractional digits. -/
theorem entry_validation :
    (∀ rest, selectCategory (CatInput.invalid :: rest)
        = ((selectCategory rest).1,
           EntryMsg.invalidInput :: (selectCategory rest).2))
      ∧ (∀ (n : ℤ) rest, ¬(1 ≤ n ∧ n ≤ (CATEGORIES.length : ℤ)) →
          selectCategory (CatInput.valid n :: rest)
            = ((selectCategory rest).1,
               EntryMsg.invalidNumber :: (selectCategory rest).2))
      ∧ (∀ (n : ℤ) rest, 1 ≤ n → n ≤ (CATEGORIES.length : ℤ) →
          selectCategory (CatInput.valid n :: rest)
            = (CATEGORIES.get? (n - 1).toNat, [])
          ∧ (CATEGORIES.get? (n - 1).toNat).isSome)
      ∧ (∀ rest, readAmount (AmtInput.invalid :: rest)
          = ((readAmount rest).1,
             EntryMsg.invalidAmount :: (readAmount rest).2))
      ∧ (∀ (q : ℚ) rest,
          readAmount (AmtInput.valid q :: rest) = (some (round2 q), []))
      ∧ EntryMsg.invalidNumber ≠ EntryMsg.invalidInput := by
  refine ⟨?_, ?_, ?_, ?_, ?_, by simp⟩
  · intro rest
    simp [selectCategory]
  · intro n rest h
    simp [selectCategory, h]
  · intro n rest h1 h2
    have hlt : (n - 1).toNat < CATEGORIES.length := by
      simp only [CATEGORIES, List.length_cons, List.length_nil] at h2 ⊢
      omega
    refine ⟨by simp [selectCategory, h1, h2], ?_⟩
    rw [List.get?_eq_get hlt]
    rfl
  · intro rest
    simp [readAmount]
  · intro q rest
    simp [readAmount]

/-- Witness for C8 at the concrete inputs of the spec: category attempts 9
(out of range) and a non-numeric string are rejected with their distinct
messages, 1 selects "Food"; a non-numeric amount is rejected, and -55.5 and
0 are accepted unchanged. -/
theorem entry_validation_witness :
    selectCategory [CatInput.valid 9] = (none, [EntryMsg.invalidNumber])
      ∧ selectCategory [CatInput.invalid] = (none, [EntryMsg.invalidInput])
      ∧ selectCategory [CatInput.valid 1] = (some "Food", [])
      ∧ readAmount [AmtInput.invalid] = (none, [EntryMsg.invalidAmount])
      ∧ readAmount [AmtInput.valid (-55.5)] = (some (-55.5), [])
      ∧ readAmount [AmtInput.valid 0] = (some 0, []) := by
  obtain ⟨h1, h2, h3, h4, h5, _⟩ := entry_validation
  refine ⟨?_, ?_, ?_, ?_, ?_, ?_⟩
  · exact (h2 9 [] (by decide)).trans (by simp [selectCategory])
  · exact (h1 []).trans (by simp [selectCategory])
  · exact ((h3 1 [] (by decide) (by decide)).1).trans (by simp [CATEGORIES])
  · exact (h4 []).trans (by simp [readAmount])
  · exact (h5 (-55.5) []).trans (by norm_num [round2])
  · exact (h5 0 []).trans (by norm_num [round2])

/-- An amount accepted by the amount retry loop is the 2-digit rounding of a
value that float() produced. -/
lemma readAmount_some :
    ∀ (l : List AmtInput) (x : ℚ),
      (readAmount l).1 = some x → ∃ q, x = round2 q := by
  intro l
  induction l with
  | nil => intro x h; simp [readAmount] at h
  | cons a rest ih =>
    intro x h
    cases a with
    | valid q =>
      simp [readAmount] at h
      exact ⟨q, h.symm⟩
    | invalid =>
      simp [readAmount] at h
      exact ih x h

/-- Every record add_expense leaves in the store was already there or is the
newly built record, whose amount is the rounded accepted input. -/
lemma add_expense_mem (today : String) (inp : EntryInputs)
    (store : List Record) (rec : Record)
    (h : rec ∈ add_expense today inp store) :
    rec ∈ store ∨ ∃ q, rec.amount = round2 q := by
  rw [add_expense] at h
  cases hc : (selectCategory inp.cats).1 with
  | none =>
    rw [hc] at h
    left
    exact h
  | some c =>
    cases ha : (readAmount inp.amts).1 with
    | none =>
      rw [hc, ha] at h
      left
      exact h
    | some a =>
      rw [hc, ha] at h
      rcases List.mem_append.mp h with h | h
      · left; exact h
      · right
        have he : rec = ⟨today, c, inp.desc.trim, a⟩ := by simpa using h
        obtain ⟨q, hq⟩ := readAmount_some inp.amts a ha
        exact ⟨q, by rw [he]; exact hq⟩

/-- Claim C7: every record in the store has the four fields with a numeric
amount, and this is preserved by every operation.  In this embedding the
`Record` type itself carries the four fields and the rational amount; the
theorem states the non-structural content: every record a load puts in the
store is the successful float() conversion of a four-field file row, and
every record a menu iteration adds was either already in the store or was
built by the entry flow with a successfully converted, rounded amount (view,
report and save never touch the store). -/
theorem store_invariant :
    (∀ (prev : List Record) (rows : List Row) (rec : Record),
        rec ∈ (load_expenses prev (some rows)).expenses →
          ∃ row ∈ rows, rowRecord row = some rec)
      ∧ (∀ (st : TrackerState) (inp : MenuInput) (rec : Record),
          rec ∈ (main_menu_step st inp).1.expenses →
            rec ∈ st.expenses ∨ ∃ q, rec.amount = round2 q) := by
  constructor
  · intro prev rows rec h
    simp only [load_expenses, loadRows_eq] at h
    exact List.mem_filterMap.mp h
  · intro st inp rec h
    by_cases h1 : inp.choice = "1"
    · have he : (main_menu_step st inp).1.expenses
          = add_expense inp.today inp.entry st.expenses := by
        simp [main_menu_step, h1]
      rw [he] at h
      exact add_expense_mem _ _ _ _ h
    · have he : (main_menu_step st inp).1.expenses = st.expenses := by
        rw [main_menu_step, if_neg h1]
        split_ifs <;> rfl
      rw [he] at h
      left
      exact h

/-- Witness for C7: a concrete loaded record traces back to a file row, and
a concrete menu iteration preserves a concrete record. -/
theorem store_invariant_witness :
    (∃ row ∈ [(⟨"2025-01-01", "Food", "a", .num 5⟩ : Row)],
        rowRecord row = some ⟨"2025-01-01", "Food", "a", 5⟩)
      ∧ ((⟨"2025-01-01", "Food", "a", 5⟩ : Record)
            ∈ (⟨[⟨"2025-01-01", "Food", "a", 5⟩], none⟩ : TrackerState).expenses
          ∨ ∃ q, (⟨"2025-01-01", "Food", "a", 5⟩ : Record).amount = round2 q) :=
  ⟨store_invariant.1 [] [⟨"2025-01-01", "Food", "a", .num 5⟩]
      ⟨"2025-01-01", "Food", "a", 5⟩ (by decide),
   store_invariant.2 ⟨[⟨"2025-01-01", "Food", "a", 5⟩], none⟩
      ⟨"2", "2025-01-02", ⟨[], [], ""⟩⟩
      ⟨"2025-01-01", "Food", "a", 5⟩ (by decide)⟩

/-- Claim C9: a menu-loop iteration reaches the exited state exactly on the
choice "4", which first saves the store to the file; every choice other than
"1".."4" leaves the state unchanged and reports an invalid choice, and the
step function is total, so no input terminates the loop otherwise. -/
theorem menu_transitions (st : TrackerState) (inp : MenuInput) :
    ((main_menu_step st inp).2 = MenuOutcome.exited ↔ inp.choice = "4")
      ∧ (inp.choice ∉ (["1", "2", "3", "4"] : List String) →
          main_menu_step st inp = (st, MenuOutcome.invalidChoice))
      ∧ (inp.choice = "4" →
          (main_menu_step st inp).1.file
              = (save_expenses st.expenses st.file).file
            ∧ (main_menu_step st inp).1.expenses = st.expenses) := by
  refine ⟨?_, ?_, ?_⟩
  · rw [main_menu_step]
    split_ifs with h1 h2 h3 h4 <;> simp_all
  · intro hnot
    simp only [List.mem_cons, List.not_mem_nil, or_false, not_or] at hnot
    rw [main_menu_step, if_neg hnot.1, if_neg hnot.2.1, if_neg hnot.2.2.1,
        if_neg hnot.2.2.2]
  · intro h4
    have hne1 : inp.choice ≠ "1" := by rw [h4]; simp
    have hne2 : inp.choice ≠ "2" := by rw [h4]; simp
    have hne3 : inp.choice ≠ "3" := by rw [h4]; simp
    rw [main_menu_step, if_neg hne1, if_neg hne2, if_neg hne3, if_pos h4]
    exact ⟨rfl, rfl⟩

/-- Witness for C9: the invalid choice "9" leaves a concrete state unchanged
with the invalid-choice outcome, and choice "4" exits with the file saved. -/
theorem menu_transitions_witness :
    main_menu_step ⟨[], none⟩ ⟨"9", "2025-01-02", ⟨[], [], ""⟩⟩
        = (⟨[], none⟩, MenuOutcome.invalidChoice)
      ∧ ((main_menu_step ⟨[], none⟩ ⟨"4", "2025-01-02", ⟨[], [], ""⟩⟩).2
            = MenuOutcome.exited
          ↔ ("4" : String) = "4") :=
  ⟨(menu_transitions ⟨[], none⟩ ⟨"9", "2025-01-02", ⟨[], [], ""⟩⟩).2.1
      (by decide),
   menu_transitions ⟨[], none⟩ ⟨"4", "2025-01-02", ⟨[], [], ""⟩⟩ |>.1⟩

end FinanceTracker
